import Mathlib

/-!
Verification of the Dress_Control repository: a periodic analog sampler with
exponential smoothing (src/unnamed/part_000) and a serial-command-driven
bidirectional TEG driver (src/TEG_Heating&Cooling.ino).

Floating-point values of the source are modelled as exact rationals (ℚ);
the `unsigned long` millisecond clock is modelled as Nat reduced modulo 2^32.
-/

namespace DressControl

/-! ### Sampler embedding (src/unnamed/part_000) -/

/-- Width of the Arduino `unsigned long` clock: values live in `[0, 2^32)`. -/
def UMOD : Nat := 2 ^ 32

/-- Wraparound-safe unsigned subtraction `a - b` at width 32,
mirroring C unsigned arithmetic in `currentMillis - previousMillis`. -/
def usub (a b : Nat) : Nat := (a % UMOD + (UMOD - b % UMOD)) % UMOD

/-- `const unsigned long interval = 50;` -/
def interval : Nat := 50

/-- `float alpha = 0.9;` -/
def alpha : ℚ := 9 / 10

/-- The smoothing update applied to `analogValue` inside `loop`:
`if (last_val > 0) analogValue = alpha * last_val + (1 - alpha) * analogValue;`.
Returns the value of `analogValue` after the conditional. -/
def filterUpdate (last_val raw : ℚ) : ℚ :=
  if last_val > 0 then alpha * last_val + (1 - alpha) * raw else raw

/-- `float voltage = analogValue * 5.00 / 1024.0;` -/
def convertVoltage (analogValue : ℚ) : ℚ := analogValue * 5 / 1024

/-- Mutable globals of the sampler sketch that persist across `loop` calls:
`previousMillis` and `last_val` (the global `analogValue` is written before
every use inside a firing iteration, so it carries no state). -/
structure SamplerState where
  previousMillis : Nat
  last_val : ℚ
  deriving DecidableEq

/-- Initial globals: `previousMillis = 0`, `last_val = -1.0`. -/
def initialSampler : SamplerState := ⟨0, -1⟩

/-- One invocation of the sampler `loop`, fed the injected clock value and the
raw ADC sample for this iteration.  Returns the new global state and, when the
interval has elapsed, the printed `(currentMillis, voltage)` line. -/
def samplerStep (s : SamplerState) (clock : Nat) (raw : ℚ) :
    SamplerState × Option (Nat × ℚ) :=
  let currentMillis := clock % UMOD
  if interval ≤ usub currentMillis s.previousMillis then
    let analogValue := filterUpdate s.last_val raw
    (⟨currentMillis, analogValue⟩, some (currentMillis, convertVoltage analogValue))
  else
    (s, none)

/-- Run the sampler loop over a list of `(clock, raw sample)` iterations,
collecting the printed output lines in order. -/
def samplerRun (s : SamplerState) : List (Nat × ℚ) → SamplerState × List (Nat × ℚ)
  | [] => (s, [])
  | (c, r) :: rest =>
    let st := samplerStep s c r
    let tail := samplerRun st.1 rest
    (tail.1, st.2.toList ++ tail.2)

/-- Clock values of the iterations that fired (emitted an output line). -/
def fireTimes (s : SamplerState) (l : List (Nat × ℚ)) : List Nat :=
  ((samplerRun s l).2).map Prod.fst

end DressControl

namespace DressControl

/-! ### Sampler lemmas -/

/-- Bootstrap branch of the smoothing conditional: when `last_val` is not
strictly positive the raw sample passes through unchanged. -/
theorem filterUpdate_of_nonpos {last : ℚ} (r : ℚ) (h : last ≤ 0) :
    filterUpdate last r = r := by
  simp [filterUpdate, not_lt.mpr h]

/-- Smoothing branch of the conditional: with strictly positive history the
update computes `0.9 * h + 0.1 * r` exactly (in the rational model). -/
theorem filterUpdate_of_pos {h : ℚ} (r : ℚ) (hp : 0 < h) :
    filterUpdate h r = 9 / 10 * h + 1 / 10 * r := by
  simp only [filterUpdate, if_pos hp, alpha]
  ring

/-- Every fire time recorded in a run is at least `interval` later (in
wraparound arithmetic) than the previous fire, the first one measured against
the `previousMillis` of the starting state. -/
theorem fireTimes_chain (l : List (Nat × ℚ)) (s : SamplerState) :
    List.Chain (fun a b => interval ≤ usub b a) s.previousMillis (fireTimes s l) := by
  induction l generalizing s with
  | nil => simp [fireTimes, samplerRun]
  | cons p rest ih =>
    obtain ⟨c, r⟩ := p
    by_cases h : interval ≤ usub (c % UMOD) s.previousMillis
    · have hstep : samplerStep s c r =
        (⟨c % UMOD, filterUpdate s.last_val r⟩,
          some (c % UMOD, convertVoltage (filterUpdate s.last_val r))) := by
        simp [samplerStep, h]
      have : fireTimes s ((c, r) :: rest) =
          (c % UMOD) :: fireTimes ⟨c % UMOD, filterUpdate s.last_val r⟩ rest := by
        simp [fireTimes, samplerRun, hstep]
      rw [this]
      exact List.Chain.cons h (ih ⟨c % UMOD, filterUpdate s.last_val r⟩)
    · have hstep : samplerStep s c r = (s, none) := by
        simp [samplerStep, h]
      have : fireTimes s ((c, r) :: rest) = fireTimes s rest := by
        simp [fireTimes, samplerRun, hstep]
      rw [this]
      exact ih s

/-! ### Sampler claims -/

/-- C1 (counterexample): the claimed end-to-end trace is wrong.  Against clocks
`[0, 20, 55, 60, 110]` with raw samples `[500, 500, 600, 600, 700]` the output
is not the claimed list firing at `t = 0, 55, 110` with smoothed values
`500, 510, 529`: since `previousMillis` starts at `0`, the tick at `t = 0` has
elapsed time `0 < 50` and does not fire. -/
theorem sampler_scenario_counterexample :
    (samplerRun initialSampler
        [(0, 500), (20, 500), (55, 600), (60, 600), (110, 700)]).2 ≠
      [(0, 2500 / 1024), (55, 2550 / 1024), (110, 2645 / 1024)] := by
  norm_num [samplerRun, samplerStep, filterUpdate, convertVoltage, usub, UMOD,
    interval, initialSampler, alpha]

/-- C1 (amended): against clocks `[0, 20, 55, 60, 110]` with raw samples
`[500, 500, 600, 600, 700]` the sampler fires only at `t = 55` (bootstrap
output 600, voltage `3000/1024 ≈ 2.93`) and `t = 110` (smoothed
`0.9*600 + 0.1*700 = 610`, voltage `3050/1024 ≈ 2.98`); the ticks at
`t = 0`, `t = 20` and `t = 60` produce no output. -/
theorem sampler_scenario_run :
    (samplerRun initialSampler
        [(0, 500), (20, 500), (55, 600), (60, 600), (110, 700)]).2 =
      [(55, convertVoltage 600),
       (110, convertVoltage (9 / 10 * 600 + 1 / 10 * 700))] ∧
    fireTimes initialSampler
        [(0, 500), (20, 500), (55, 600), (60, 600), (110, 700)] = [55, 110] := by
  constructor <;>
    norm_num [fireTimes, samplerRun, samplerStep, filterUpdate, convertVoltage,
      usub, UMOD, interval, initialSampler, alpha]

/-- C2 (counterexample): two firing iterations that are not consecutive can
have clock values whose wraparound-safe unsigned difference is below
`interval`: with clocks `[100, 2^32 - 50, 130]` every iteration fires, yet
the first and third fires measure `usub 130 100 = 30 < 50` apart. -/
theorem sampler_pairwise_counterexample :
    fireTimes initialSampler [(100, 500), (4294967246, 500), (130, 500)] =
      [100, 4294967246, 130] ∧
    usub 130 100 < interval := by
  constructor <;>
    norm_num [fireTimes, samplerRun, samplerStep, filterUpdate, convertVoltage,
      usub, UMOD, interval, initialSampler, alpha]

/-- C2 (amended): any two consecutive firing iterations have clock values
whose wraparound-safe unsigned difference is at least `interval` (50 ms), for
every injected clock sequence including wraparound; and an iteration on which
the interval has not elapsed leaves the whole state — in particular
`previousMillis` — unchanged and emits nothing. -/
theorem sampler_min_separation :
    (∀ l : List (Nat × ℚ),
      List.Chain' (fun a b => interval ≤ usub b a) (fireTimes initialSampler l)) ∧
    (∀ (s : SamplerState) (c : Nat) (r : ℚ),
      usub (c % UMOD) s.previousMillis < interval → samplerStep s c r = (s, none)) := by
  constructor
  · intro l
    have h : List.Chain' (fun a b => interval ≤ usub b a)
        (initialSampler.previousMillis :: fireTimes initialSampler l) :=
      fireTimes_chain l initialSampler
    exact h.tail
  · intro s c r h
    simp [samplerStep, not_le.mpr h]

/-- C2 witness: a concrete non-firing iteration (clock 10 from `previousMillis`
0) leaves the state unchanged. -/
theorem sampler_min_separation_witness :
    usub (10 % UMOD) initialSampler.previousMillis < interval ∧
    samplerStep initialSampler 10 3 = (initialSampler, none) :=
  ⟨by decide, sampler_min_separation.2 initialSampler 10 3 (by decide)⟩

/-- C3 (confirmed): a filter update made while the stored value is the
uninitialized sentinel (`last_val ≤ 0`, initially `-1.0`) returns the raw
sample unchanged, and the raw sample becomes the new stored state on a firing
iteration. -/
theorem filter_bootstrap (last r : ℚ) (h : last ≤ 0) :
    filterUpdate last r = r ∧
    ∀ (s : SamplerState) (c : Nat), s.last_val = last →
      interval ≤ usub (c % UMOD) s.previousMillis →
      (samplerStep s c r).1.last_val = r := by
  refine ⟨filterUpdate_of_nonpos r h, ?_⟩
  intro s c hs hfire
  simp [samplerStep, hfire, hs, filterUpdate_of_nonpos r h]

/-- C3 witness: from the initial state (`last_val = -1`), a firing iteration
with raw sample 7 outputs 7 and stores 7. -/
theorem filter_bootstrap_witness :
    filterUpdate (-1) 7 = 7 ∧ (samplerStep initialSampler 100 7).1.last_val = 7 :=
  ⟨(filter_bootstrap (-1) 7 (by norm_num)).1,
   (filter_bootstrap (-1) 7 (by norm_num)).2 initialSampler 100 rfl (by decide)⟩

/-- C4 (counterexample): a call after the first need not return
`0.9*h + 0.1*r`.  If the first raw sample is 0, the stored history is 0 and
the second call with raw sample 100 returns 100, not
`0.9*0 + 0.1*100 = 10`. -/
theorem filter_formula_counterexample :
    filterUpdate (filterUpdate (-1) 0) 100 = 100 ∧
    alpha * filterUpdate (-1) 0 + (1 - alpha) * 100 = 10 ∧
    (100 : ℚ) ≠ 10 := by
  refine ⟨?_, ?_, ?_⟩ <;> norm_num [filterUpdate, alpha]

/-- C4 (amended): every filter update whose stored history `h` is strictly
positive returns exactly `0.9*h + 0.1*r` (exact in the rational model of
float arithmetic), and on a firing iteration the stored state becomes that
returned value. -/
theorem filter_smoothing (h r : ℚ) (hp : 0 < h) :
    filterUpdate h r = 9 / 10 * h + 1 / 10 * r ∧
    ∀ (s : SamplerState) (c : Nat), s.last_val = h →
      interval ≤ usub (c % UMOD) s.previousMillis →
      (samplerStep s c r).1.last_val = filterUpdate h r := by
  refine ⟨filterUpdate_of_pos r hp, ?_⟩
  intro s c hs hfire
  simp [samplerStep, hfire, hs]

/-- C4 witness: history 500 with raw sample 600 smooths to 510, which a
firing iteration stores. -/
theorem filter_smoothing_witness :
    filterUpdate 500 600 = 9 / 10 * 500 + 1 / 10 * 600 ∧
    (samplerStep ⟨0, 500⟩ 100 600).1.last_val = filterUpdate 500 600 :=
  ⟨(filter_smoothing 500 600 (by norm_num)).1,
   (filter_smoothing 500 600 (by norm_num)).2 ⟨0, 500⟩ 100 rfl (by decide)⟩

/-- C9 (confirmed): the voltage conversion `x * 5 / 1024` is additive,
homogeneous, and strictly order-preserving on all rational inputs (hence in
particular on the ADC range). -/
theorem convert_linear_monotone :
    (∀ x y : ℚ, x < y → convertVoltage x < convertVoltage y) ∧
    (∀ x y : ℚ, convertVoltage (x + y) = convertVoltage x + convertVoltage y) ∧
    (∀ c x : ℚ, convertVoltage (c * x) = c * convertVoltage x) := by
  refine ⟨?_, ?_, ?_⟩
  · intro x y h
    simp only [convertVoltage]
    linarith
  · intro x y
    simp only [convertVoltage]
    ring
  · intro c x
    simp only [convertVoltage]
    ring

/-- C9 witness: strict monotonicity at the concrete pair `3 < 5`. -/
theorem convert_linear_monotone_witness :
    convertVoltage 3 < convertVoltage 5 :=
  convert_linear_monotone.1 3 5 (by norm_num)

/-- C10 (confirmed): a bootstrap call that receives raw sample 0 stores 0,
which the sentinel test still treats as uninitialized; every update whose
stored state is `≤ 0` returns its raw sample unchanged, and once a call
stores a strictly positive value the smoothing formula applies again. -/
theorem filter_zero_sentinel (last : ℚ) (h : last ≤ 0) :
    filterUpdate last 0 = 0 ∧
    (∀ r : ℚ, filterUpdate last r = r) ∧
    (∀ r : ℚ, 0 < r → 0 < filterUpdate last r ∧
      ∀ r2 : ℚ, filterUpdate (filterUpdate last r) r2 = 9 / 10 * r + 1 / 10 * r2) := by
  refine ⟨filterUpdate_of_nonpos 0 h, fun r => filterUpdate_of_nonpos r h, ?_⟩
  intro r hr
  rw [filterUpdate_of_nonpos r h]
  exact ⟨hr, fun r2 => filterUpdate_of_pos r2 hr⟩

/-- C10 witness: with stored state 0 (still sentinel), raw 0 keeps 0, raw 5
bootstraps to 5, and the following call smooths `0.9*5 + 0.1*7`. -/
theorem filter_zero_sentinel_witness :
    filterUpdate 0 0 = 0 ∧ filterUpdate 0 5 = 5 ∧
    filterUpdate (filterUpdate 0 5) 7 = 9 / 10 * 5 + 1 / 10 * 7 :=
  ⟨(filter_zero_sentinel 0 le_rfl).1,
   (filter_zero_sentinel 0 le_rfl).2.1 5,
   ((filter_zero_sentinel 0 le_rfl).2.2 5 (by norm_num)).2 7⟩

/-! ### TEG driver embedding (src/TEG_Heating&Cooling.ino) -/

/-- The `TEG` motor-drive class: a PWM enable pin plus two direction pins. -/
structure TEG where
  enable_pin : Int
  pin1 : Int
  pin2 : Int
  deriving DecidableEq

/-- Pin definitions: `int ena = 2; int in1 = 3; int in2 = 4;`. -/
def ena : Int := 2

def in1 : Int := 3

def in2 : Int := 4

/-- `int in3 = 5; int in4 = 6; int enb = 7;`. -/
def in3 : Int := 5

def in4 : Int := 6

def enb : Int := 7

/-- `TEG TEG_L(ena, in1, in2);` -/
def TEG_L : TEG := ⟨ena, in1, in2⟩

/-- `TEG TEG_R(enb, in3, in4);` -/
def TEG_R : TEG := ⟨enb, in3, in4⟩

/-- Electrical state of the board: the level last written to each digital pin
(`true` = HIGH) and the duty cycle last written to each PWM pin. -/
structure PinState where
  digital : Int → Bool
  pwm : Int → Int

/-- All pins default LOW / duty 0 before any command. -/
def pinStart : PinState := ⟨fun _ => false, fun _ => 0⟩

/-- `digitalWrite(pin, level)` -/
def digitalWrite (s : PinState) (pin : Int) (level : Bool) : PinState :=
  { s with digital := fun q => if q = pin then level else s.digital q }

/-- `analogWrite(pin, duty)` -/
def analogWrite (s : PinState) (pin : Int) (duty : Int) : PinState :=
  { s with pwm := fun q => if q = pin then duty else s.pwm q }

/-- `TEG::forward(pwm)`: pin1 HIGH, pin2 LOW, enable driven with `pwm`. -/
def TEG.forward (t : TEG) (pwm : Int) (s : PinState) : PinState :=
  analogWrite (digitalWrite (digitalWrite s t.pin1 true) t.pin2 false) t.enable_pin pwm

/-- `TEG::backward(pwm)`: pin1 LOW, pin2 HIGH, enable driven with `pwm`. -/
def TEG.backward (t : TEG) (pwm : Int) (s : PinState) : PinState :=
  analogWrite (digitalWrite (digitalWrite s t.pin1 false) t.pin2 true) t.enable_pin pwm

/-- `TEG::stop()`: both direction pins LOW and duty cycle 0. -/
def TEG.stop (t : TEG) (s : PinState) : PinState :=
  analogWrite (digitalWrite (digitalWrite s t.pin1 false) t.pin2 false) t.enable_pin 0

/-- One actuator call made by the dispatcher. -/
inductive ActAction where
  | fwd : TEG → Int → ActAction
  | bwd : TEG → Int → ActAction
  | halt : TEG → ActAction
  deriving DecidableEq

/-- Pin effect of one actuator call. -/
def applyAction (s : PinState) : ActAction → PinState
  | .fwd t p => t.forward p s
  | .bwd t p => t.backward p s
  | .halt t => t.stop s

/-- The chained-conditional command dispatch of `loop`, applied to the single
byte consumed this iteration.  Returns the actuator calls made, in order, and
the text written to the serial stream (`Serial.println` appends a newline). -/
def dispatch (command : Char) : List ActAction × String :=
  if command = 'a' then ([.fwd TEG_L 255], "a\n")
  else if command = 's' then ([.halt TEG_L, .halt TEG_R], "s\n")
  else if command = 'd' then ([.bwd TEG_L 255], "d\n")
  else if command = 'w' then ([.fwd TEG_R 135], "w\n")
  else if command = 'x' then ([.bwd TEG_R 135], "x\n")
  else ([], "")

/-- Pin state after one dispatcher iteration consuming `command`. -/
def dispatchPins (command : Char) (s : PinState) : PinState :=
  (dispatch command).1.foldl applyAction s

/-- Direction pins of `t` are a mutually exclusive pair in `s`: never both
active (HIGH) at the same time. -/
def dirPinsExclusive (t : TEG) (s : PinState) : Prop :=
  ¬(s.digital t.pin1 = true ∧ s.digital t.pin2 = true)

/-! ### TEG driver claims -/

/-- C5 (confirmed): byte `'a'` causes exactly one actuator call — left
forward with power 255 — and echoes the character plus a newline; likewise
`'d'` → left backward 255, `'w'` → right forward 135, `'x'` → right backward
135, and `'s'` stops both actuators, each echoing its own character. -/
theorem dispatch_commands :
    dispatch 'a' = ([.fwd TEG_L 255], "a\n") ∧
    dispatch 'd' = ([.bwd TEG_L 255], "d\n") ∧
    dispatch 'w' = ([.fwd TEG_R 135], "w\n") ∧
    dispatch 'x' = ([.bwd TEG_R 135], "x\n") ∧
    dispatch 's' = ([.halt TEG_L, .halt TEG_R], "s\n") := by
  refine ⟨rfl, ?_, ?_, ?_, ?_⟩ <;> decide

/-- C6 (confirmed): a consumed byte that is none of `a, d, w, x, s` causes no
actuator call, no echo, and leaves every pin unchanged. -/
theorem dispatch_unrecognized (c : Char)
    (ha : c ≠ 'a') (hd : c ≠ 'd') (hw : c ≠ 'w') (hx : c ≠ 'x') (hs : c ≠ 's') :
    dispatch c = ([], "") ∧ ∀ s : PinState, dispatchPins c s = s := by
  have h : dispatch c = ([], "") := by
    simp [dispatch, ha, hd, hw, hx, hs]
  exact ⟨h, fun s => by simp [dispatchPins, h]⟩

/-- C6 witness: the unmapped byte `'q'` is dropped silently, leaving the
startup pin state intact. -/
theorem dispatch_unrecognized_witness :
    dispatch 'q' = ([], "") ∧ dispatchPins 'q' pinStart = pinStart :=
  ⟨(dispatch_unrecognized 'q' (by decide) (by decide) (by decide) (by decide)
      (by decide)).1,
   (dispatch_unrecognized 'q' (by decide) (by decide) (by decide) (by decide)
      (by decide)).2 pinStart⟩

/-- C7 (confirmed): after every actuator operation (forward, backward or
stop) on either instance (`TEG_L`, `TEG_R`), that actuator's two direction
pins are driven to a mutually exclusive pair — never both HIGH — so at most
one of forward-active, backward-active, stopped holds. -/
theorem actuator_direction_exclusive :
    ∀ (p : Int) (s : PinState),
      dirPinsExclusive TEG_L (TEG_L.forward p s) ∧
      dirPinsExclusive TEG_L (TEG_L.backward p s) ∧
      dirPinsExclusive TEG_L (TEG_L.stop s) ∧
      dirPinsExclusive TEG_R (TEG_R.forward p s) ∧
      dirPinsExclusive TEG_R (TEG_R.backward p s) ∧
      dirPinsExclusive TEG_R (TEG_R.stop s) := by
  intro p s
  refine ⟨?_, ?_, ?_, ?_, ?_, ?_⟩ <;>
    simp [dirPinsExclusive, TEG.forward, TEG.backward, TEG.stop, digitalWrite,
      analogWrite, TEG_L, TEG_R, ena, enb, in1, in2, in3, in4]

/-- C8 (confirmed): `forward(p)` (or `backward(p)`) followed by `stop()`
leaves both direction pins of that actuator LOW and its PWM duty cycle 0,
for every power level and every prior pin state. -/
theorem actuator_stop_clears :
    ∀ (t : TEG) (p : Int) (s : PinState),
      ((t.stop (t.forward p s)).digital t.pin1 = false ∧
       (t.stop (t.forward p s)).digital t.pin2 = false ∧
       (t.stop (t.forward p s)).pwm t.enable_pin = 0) ∧
      ((t.stop (t.backward p s)).digital t.pin1 = false ∧
       (t.stop (t.backward p s)).digital t.pin2 = false ∧
       (t.stop (t.backward p s)).pwm t.enable_pin = 0) := by
  intro t p s
  by_cases h : t.pin1 = t.pin2 <;>
    simp [TEG.stop, TEG.forward, TEG.backward, digitalWrite, analogWrite, h]

end DressControl
